import Mathlib

/-!
# Advanced Light Group — verification of the state-reduction and dispatch engine

Shallow embedding of `custom_components/advanced_light_group/light.py`:
the membership model, the state-reduction engine (`async_update` and its
attribute reducers) and the command dispatcher (`async_turn_on`,
`async_turn_off`, `async_toggle`).  Device states are typed records, the
Home Assistant state machine is an environment function from entity ids to
optional states, and each dispatcher verb returns the single batched command
it would issue.
-/

set_option autoImplicit false

namespace ALG

/-- Home Assistant's `STATE_ON` constant. -/
def STATE_ON : String := "on"

/-- Home Assistant's `STATE_UNAVAILABLE` constant. -/
def STATE_UNAVAILABLE : String := "unavailable"

/-- Constant `light.SUPPORT_BRIGHTNESS`. -/
def SUPPORT_BRIGHTNESS : Nat := 1

/-- Constant `light.SUPPORT_COLOR_TEMP`. -/
def SUPPORT_COLOR_TEMP : Nat := 2

/-- Constant `light.SUPPORT_EFFECT`. -/
def SUPPORT_EFFECT : Nat := 4

/-- Constant `light.SUPPORT_FLASH`. -/
def SUPPORT_FLASH : Nat := 8

/-- Constant `light.SUPPORT_COLOR`. -/
def SUPPORT_COLOR : Nat := 16

/-- Constant `light.SUPPORT_TRANSITION`. -/
def SUPPORT_TRANSITION : Nat := 32

/-- Constant `light.SUPPORT_WHITE_VALUE`. -/
def SUPPORT_WHITE_VALUE : Nat := 128

/-- The group's fixed capability mask `SUPPORT_GROUP_LIGHT` (light.py:61-69). -/
def SUPPORT_GROUP_LIGHT : Nat :=
  SUPPORT_BRIGHTNESS ||| SUPPORT_COLOR_TEMP ||| SUPPORT_EFFECT ||| SUPPORT_FLASH |||
  SUPPORT_COLOR ||| SUPPORT_TRANSITION ||| SUPPORT_WHITE_VALUE

/-- A member light's state snapshot (`homeassistant.core.State`): its entity id,
its power state string, and the light attributes from its `attributes` mapping,
each `none` when the key is absent.  `effect_list` is carried as a `Finset`
because the python code only ever treats it with set semantics. -/
structure State where
  entity_id : String
  state : String
  brightness : Option Int
  hs_color : Option (ℚ × ℚ)
  color_temp : Option Int
  white_value : Option Int
  min_mireds : Option Int
  max_mireds : Option Int
  effect : Option String
  effect_list : Option (Finset String)
  supported_features : Option Nat
deriving DecidableEq

/-- An all-absent snapshot, convenient base for concrete examples. -/
def blankState (id st : String) : State :=
  ⟨id, st, none, none, none, none, none, none, none, none, none⟩

/-- The light group's immutable membership (`AdvancedLightGroup.__init__`):
`_main_lights` and `_aux_lights` as configured. -/
structure LightGroup where
  name : String
  main_lights : List String
  aux_lights : List String

/-- The stored union `self._entity_ids = main_lights + aux_lights`
(light.py:95). -/
def entity_ids (g : LightGroup) : List String := g.main_lights ++ g.aux_lights

/-- The Home Assistant state machine `hass.states.get`: entity id to optional
state snapshot. -/
def Env : Type := String → Option State

/-- Method `AdvancedLightGroup._get_states_and_on_states` (light.py:252-256): the list
of known member states in membership order, and its sublist of states whose
power state is `STATE_ON`. -/
def _get_states_and_on_states (g : LightGroup) (hass : Env) :
    List State × List State :=
  let all_states := (entity_ids g).map hass
  let states := all_states.filterMap id
  (states, states.filter (fun s => s.state == STATE_ON))

/-- Method `AdvancedLightGroup._get_turned_on_entities` (light.py:248-250). -/
def _get_turned_on_entities (g : LightGroup) (hass : Env) : List String :=
  (_get_states_and_on_states g hass).2.map (fun s => s.entity_id)

/-- The `kwargs` payload of a `turn_on`/`turn_off`/`toggle` service call,
restricted to the attribute keys the dispatcher inspects. -/
structure Payload where
  brightness : Option Int
  hs_color : Option (ℚ × ℚ)
  color_temp : Option Int
  white_value : Option Int
  effect : Option String
  transition : Option ℚ
  flash : Option String
deriving DecidableEq

/-- The payload with no keys at all. -/
def Payload.empty : Payload := ⟨none, none, none, none, none, none, none⟩

/-- Whether the `data` dict holds no attribute key (`not data` in python, before
`ATTR_ENTITY_ID` is inserted). -/
def Payload.isEmpty (p : Payload) : Bool :=
  p.brightness.isNone && p.hs_color.isNone && p.color_temp.isNone &&
  p.white_value.isNone && p.effect.isNone && p.transition.isNone && p.flash.isNone

/-- The key-by-key copy of the recognised `kwargs` keys into `data`
(light.py:198-219). -/
def _turn_on_data (kwargs : Payload) : Payload :=
  { brightness := kwargs.brightness
    hs_color := kwargs.hs_color
    color_temp := kwargs.color_temp
    white_value := kwargs.white_value
    effect := kwargs.effect
    transition := kwargs.transition
    flash := kwargs.flash }

/-- The one batched `light.turn_on` service call a dispatch issues: the
`ATTR_ENTITY_ID` target list and the forwarded attribute payload. -/
structure TurnOnCommand where
  targets : List String
  data : Payload
deriving DecidableEq

/-- The one batched `light.turn_off` service call a dispatch issues. -/
structure TurnOffCommand where
  targets : List String
  data : Payload
deriving DecidableEq

/-- The cached composite state, recomputed wholesale by `async_update`. -/
structure CompositeState where
  is_on : Bool
  main_lights_on : Bool
  available : Bool
  brightness : Option Int
  hs_color : Option (ℚ × ℚ)
  white_value : Option Int
  color_temp : Option Int
  min_mireds : Option Int
  max_mireds : Option Int
  effect_list : Option (Finset String)
  effect : Option String
  supported_features : Nat
deriving DecidableEq

/-- Method `AdvancedLightGroup.async_turn_on` (light.py:196-228): build `data` from the
recognised kwargs; if the cached `_is_on` flag is false or `data` is empty the
targets are `_main_lights`, otherwise the currently turned-on entities
re-derived from the state machine. -/
def async_turn_on (g : LightGroup) (st : CompositeState) (hass : Env)
    (kwargs : Payload) : TurnOnCommand :=
  let data := _turn_on_data kwargs
  if !st.is_on || data.isEmpty then
    { targets := g.main_lights, data := data }
  else
    { targets := _get_turned_on_entities g hass, data := data }

/-- Method `AdvancedLightGroup.async_turn_off` (light.py:230-239): targets are always
`_entity_ids`; of the kwargs only `transition` is copied into `data`. -/
def async_turn_off (g : LightGroup) (kwargs : Payload) : TurnOffCommand :=
  { targets := entity_ids g
    data := { Payload.empty with transition := kwargs.transition } }

/-- The command a dispatcher invocation sends to the service bus. -/
inductive Dispatched where
  | on (cmd : TurnOnCommand)
  | off (cmd : TurnOffCommand)
deriving DecidableEq

/-- Whether a dispatched command is a `turn_off`. -/
def Dispatched.isOff : Dispatched → Bool
  | .off _ => true
  | .on _ => false

/-- Method `AdvancedLightGroup.async_toggle` (light.py:241-246): turn off when the
cached `_main_lights_on` flag is set, else turn on, same kwargs either way. -/
def async_toggle (g : LightGroup) (st : CompositeState) (hass : Env)
    (kwargs : Payload) : Dispatched :=
  if st.main_lights_on then .off (async_turn_off g kwargs)
  else .on (async_turn_on g st hass kwargs)

/-- Function `_find_state_attributes` (light.py:304-309): the values of one attribute,
in state order, skipping members on which it is absent.  The python function is
generic in the string key; the embedding is generic in the typed getter. -/
def _find_state_attributes {α : Type} (states : List State)
    (get : State → Option α) : List α :=
  states.filterMap get

/-- Function `_mean_int` (light.py:312-314): `int(sum(args) / len(args))` — the mean
truncated toward zero, as python's `int()` truncates the true quotient. -/
def _mean_int (args : List Int) : Int :=
  Int.tdiv args.sum args.length

/-- Function `_mean_tuple` (light.py:317-319) at pair type: the component-wise mean of
the supplied pairs. -/
def _mean_tuple (args : List (ℚ × ℚ)) : ℚ × ℚ :=
  ((args.map Prod.fst).sum / args.length, (args.map Prod.snd).sum / args.length)

/-- The builtin `min(*attrs)` reducer over at least one argument. -/
def _min_reduce (args : List Int) : Int :=
  match args with
  | [] => 0
  | a :: rest => rest.foldl min a

/-- The builtin `max(*attrs)` reducer over at least one argument. -/
def _max_reduce (args : List Int) : Int :=
  match args with
  | [] => 0
  | a :: rest => rest.foldl max a

/-- Function `_reduce_attribute` (light.py:322-339): default when no value is found, the
value itself when exactly one is found, the reduction of all values otherwise. -/
def _reduce_attribute {α : Type} (states : List State) (get : State → Option α)
    (default : Option α) (reduce : List α → α) : Option α :=
  match _find_state_attributes states get with
  | [] => default
  | [a] => some a
  | attrs => some (reduce attrs)

/-- Expression `Counter(...).most_common(1)[0][0]` (light.py:291-292) on the gathered
effects, `none` on the empty list: the first element whose multiplicity in the
list is maximal — `Counter` keeps first-insertion order and `most_common`
breaks count ties by it. -/
def _most_common (l : List String) : Option String :=
  l.find? (fun c => l.all (fun x => decide (l.count x ≤ l.count c)))

/-- Expression `set().union(*all_effect_lists)` (light.py:285). -/
def _union_effect_lists (ls : List (Finset String)) : Finset String :=
  ls.foldl (fun acc l => acc ∪ l) ∅

/-- Method `AdvancedLightGroup.async_update` (light.py:258-301): recompute the whole
composite state from a fresh snapshot of every member. -/
def async_update (g : LightGroup) (hass : Env) : CompositeState :=
  let p := _get_states_and_on_states g hass
  let states := p.1
  let on_states := p.2
  let turned_on_lights := _get_turned_on_entities g hass
  { is_on := decide (0 < on_states.length)
    main_lights_on := g.main_lights.any (fun m => turned_on_lights.contains m)
    available := states.any (fun s => s.state != STATE_UNAVAILABLE)
    brightness := _reduce_attribute on_states (fun s => s.brightness) none _mean_int
    hs_color := _reduce_attribute on_states (fun s => s.hs_color) none _mean_tuple
    white_value := _reduce_attribute on_states (fun s => s.white_value) none _mean_int
    color_temp := _reduce_attribute on_states (fun s => s.color_temp) none _mean_int
    min_mireds := _reduce_attribute states (fun s => s.min_mireds) (some 154) _min_reduce
    max_mireds := _reduce_attribute states (fun s => s.max_mireds) (some 500) _max_reduce
    effect_list :=
      (let all_effect_lists := _find_state_attributes states (fun s => s.effect_list)
       if all_effect_lists.isEmpty then none
       else some (_union_effect_lists all_effect_lists))
    effect := _most_common (_find_state_attributes on_states (fun s => s.effect))
    supported_features :=
      ((_find_state_attributes states (fun s => s.supported_features)).foldl
        (fun acc support => acc ||| support) 0) &&& SUPPORT_GROUP_LIGHT }

/-- The member states known to the composite (the `states` list of
`async_update`). -/
def presentStates (g : LightGroup) (hass : Env) : List State :=
  (_get_states_and_on_states g hass).1

/-- The known member states whose power state is `STATE_ON` (the `on_states`
list of `async_update`). -/
def onStates (g : LightGroup) (hass : Env) : List State :=
  (_get_states_and_on_states g hass).2

/-- The brightness values gathered from the ON members. -/
def brightnessValues (g : LightGroup) (hass : Env) : List Int :=
  _find_state_attributes (onStates g hass) (fun s => s.brightness)

/-- The hs_color values gathered from the ON members. -/
def hsColorValues (g : LightGroup) (hass : Env) : List (ℚ × ℚ) :=
  _find_state_attributes (onStates g hass) (fun s => s.hs_color)

/-- The white_value values gathered from the ON members. -/
def whiteValueValues (g : LightGroup) (hass : Env) : List Int :=
  _find_state_attributes (onStates g hass) (fun s => s.white_value)

/-- The color_temp values gathered from the ON members. -/
def colorTempValues (g : LightGroup) (hass : Env) : List Int :=
  _find_state_attributes (onStates g hass) (fun s => s.color_temp)

/-- The min_mireds values gathered from the present members. -/
def minMiredsValues (g : LightGroup) (hass : Env) : List Int :=
  _find_state_attributes (presentStates g hass) (fun s => s.min_mireds)

/-- The max_mireds values gathered from the present members. -/
def maxMiredsValues (g : LightGroup) (hass : Env) : List Int :=
  _find_state_attributes (presentStates g hass) (fun s => s.max_mireds)

/-- The effect values gathered from the ON members. -/
def effectValues (g : LightGroup) (hass : Env) : List String :=
  _find_state_attributes (onStates g hass) (fun s => s.effect)

/-- The effect lists gathered from the present members. -/
def effectListValues (g : LightGroup) (hass : Env) : List (Finset String) :=
  _find_state_attributes (presentStates g hass) (fun s => s.effect_list)

/-- The supported-feature masks gathered from the present members. -/
def featureValues (g : LightGroup) (hass : Env) : List Nat :=
  _find_state_attributes (presentStates g hass) (fun s => s.supported_features)

/-! Spec-side reduction shapes, written from the specification's words for
comparison with the source reducers: zero values give the default, one value
is returned unchanged, several values are reduced (truncated arithmetic mean
for ints, component-wise mean for pairs, the supplied reducer for mireds). -/

/-- Modelled from the spec: the described reduction of an integer attribute —
none on zero values, the value unchanged on one, the arithmetic mean truncated
to an integer on several. -/
def specNumericReduction (vals : List Int) : Option Int :=
  match vals with
  | [] => none
  | [x] => some x
  | l => some (Int.tdiv l.sum l.length)

/-- Modelled from the spec: the described reduction of `hs_color` — none on
zero values, the pair unchanged on one, the component-wise arithmetic mean on
several. -/
def specPairReduction (vals : List (ℚ × ℚ)) : Option (ℚ × ℚ) :=
  match vals with
  | [] => none
  | [x] => some x
  | l => some ((l.map Prod.fst).sum / (l.length : ℚ),
               (l.map Prod.snd).sum / (l.length : ℚ))

/-- Modelled from the spec: the described reduction of the mireds bounds — the
default on zero values, the value unchanged on one, the supplied reduction
(minimum or maximum) on several. -/
def specMiredsReduction (dflt : Int) (rdc : List Int → Int) (vals : List Int) :
    Option Int :=
  match vals with
  | [] => some dflt
  | [x] => some x
  | l => some (rdc l)

/-! Concrete members, groups and environments used by the counterexample and
the witnesses. -/

/-- A two-member group: main light `a`, auxiliary light `b`. -/
def cexGroup : LightGroup := ⟨ "group", ["a"], ["b"]⟩

/-- Member `a` reported off. -/
def cexOffA : State := blankState "a" "off"

/-- Member `b` reported on with brightness 101. -/
def cexOnB : State := { blankState "b" STATE_ON with brightness := some 101 }

/-- Environment where the main light is off and the auxiliary light is on. -/
def cexEnv : Env := fun id =>
  if id = "a" then some cexOffA else if id = "b" then some cexOnB else none

/-- Environment where both members are off. -/
def cexOffEnv : Env := fun id =>
  if id = "a" then some cexOffA
  else if id = "b" then some (blankState "b" "off") else none

/-- A non-empty turn-on payload: brightness 10. -/
def cexPayload : Payload := { Payload.empty with brightness := some 10 }

/-- An ON member with every attribute reported. -/
def w6A : State :=
  ⟨ "a", STATE_ON, some 100, some (10, 20), some 300, some 10, some 200,
    some 400, some "colorloop", some { "colorloop", "reverse"}, some 3⟩

/-- A second ON member with every attribute reported. -/
def w6B : State :=
  ⟨ "b", STATE_ON, some 101, some (30, 40), some 301, some 21, some 180,
    some 450, some "reverse", some { "reverse"}, some 300⟩

/-- Environment where both members of `cexGroup` are on with full attributes. -/
def w6EnvBoth : Env := fun id =>
  if id = "a" then some w6A else if id = "b" then some w6B else none

/-- Environment where only member `a` is known (and on). -/
def w6EnvA : Env := fun id => if id = "a" then some w6A else none

/-- A three-member group for the effect tie-break example. -/
def w7Group : LightGroup := ⟨ "group3", ["a"], ["b", "c"]⟩

/-- Environment where the three members of `w7Group` report effects
`["A", "B", "A"]` in membership order. -/
def w7Env : Env := fun id =>
  if id = "a" then some { blankState "a" STATE_ON with effect := some "A" }
  else if id = "b" then some { blankState "b" STATE_ON with effect := some "B" }
  else if id = "c" then some { blankState "c" STATE_ON with effect := some "A" }
  else none

/-- A group in which member `a` is both a main and an auxiliary light. -/
def dupGroup : LightGroup := ⟨ "dup", ["a"], ["a", "b"]⟩

/-- The duplicated member, on with brightness 100. -/
def dupStateA : State := { blankState "a" STATE_ON with brightness := some 100 }

/-- The other member, on with brightness 130. -/
def dupStateB : State := { blankState "b" STATE_ON with brightness := some 130 }

/-- Environment for `dupGroup`: both members on with brightness 100 and 130. -/
def dupEnv : Env := fun id =>
  if id = "a" then some dupStateA else if id = "b" then some dupStateB else none

/-! ## Helper lemmas -/

/-- Copying the recognised kwargs keys into `data` reproduces the payload. -/
theorem turn_on_data_eq (kwargs : Payload) : _turn_on_data kwargs = kwargs := rfl

/-- Behaviour of `_reduce_attribute` when no value is gathered. -/
theorem reduce_attribute_of_nil {α : Type} (states : List State)
    (get : State → Option α) (d : Option α) (r : List α → α)
    (h : _find_state_attributes states get = []) :
    _reduce_attribute states get d r = d := by
  unfold _reduce_attribute
  rw [h]

/-- Behaviour of `_reduce_attribute` when exactly one value is gathered. -/
theorem reduce_attribute_of_one {α : Type} (states : List State)
    (get : State → Option α) (d : Option α) (r : List α → α) (x : α)
    (h : _find_state_attributes states get = [x]) :
    _reduce_attribute states get d r = some x := by
  unfold _reduce_attribute
  rw [h]

/-- Behaviour of `_reduce_attribute` when at least two values are gathered. -/
theorem reduce_attribute_of_two_le {α : Type} (states : List State)
    (get : State → Option α) (d : Option α) (r : List α → α)
    (h : 2 ≤ (_find_state_attributes states get).length) :
    _reduce_attribute states get d r
      = some (r (_find_state_attributes states get)) := by
  unfold _reduce_attribute
  cases hl : _find_state_attributes states get with
  | nil => rw [hl] at h; simp at h
  | cons a t =>
    cases t with
    | nil => rw [hl] at h; simp at h
    | cons b t2 => simp

/-- The `brightness` field of `async_update`, unfolded. -/
theorem update_brightness_def (g : LightGroup) (hass : Env) :
    (async_update g hass).brightness
      = _reduce_attribute (onStates g hass) (fun s => s.brightness) none _mean_int := rfl

/-- The `hs_color` field of `async_update`, unfolded. -/
theorem update_hs_color_def (g : LightGroup) (hass : Env) :
    (async_update g hass).hs_color
      = _reduce_attribute (onStates g hass) (fun s => s.hs_color) none _mean_tuple := rfl

/-- The `white_value` field of `async_update`, unfolded. -/
theorem update_white_value_def (g : LightGroup) (hass : Env) :
    (async_update g hass).white_value
      = _reduce_attribute (onStates g hass) (fun s => s.white_value) none _mean_int := rfl

/-- The `color_temp` field of `async_update`, unfolded. -/
theorem update_color_temp_def (g : LightGroup) (hass : Env) :
    (async_update g hass).color_temp
      = _reduce_attribute (onStates g hass) (fun s => s.color_temp) none _mean_int := rfl

/-- The `min_mireds` field of `async_update`, unfolded. -/
theorem update_min_mireds_def (g : LightGroup) (hass : Env) :
    (async_update g hass).min_mireds
      = _reduce_attribute (presentStates g hass) (fun s => s.min_mireds)
          (some 154) _min_reduce := rfl

/-- The `max_mireds` field of `async_update`, unfolded. -/
theorem update_max_mireds_def (g : LightGroup) (hass : Env) :
    (async_update g hass).max_mireds
      = _reduce_attribute (presentStates g hass) (fun s => s.max_mireds)
          (some 500) _max_reduce := rfl

/-- The `effect` field of `async_update`, unfolded. -/
theorem update_effect_def (g : LightGroup) (hass : Env) :
    (async_update g hass).effect = _most_common (effectValues g hass) := rfl

/-- The `effect_list` field of `async_update`, unfolded. -/
theorem update_effect_list_def (g : LightGroup) (hass : Env) :
    (async_update g hass).effect_list
      = (if (effectListValues g hass).isEmpty then none
         else some (_union_effect_lists (effectListValues g hass))) := rfl

/-- The `supported_features` field of `async_update`, unfolded. -/
theorem update_supported_features_def (g : LightGroup) (hass : Env) :
    (async_update g hass).supported_features
      = ((featureValues g hass).foldl (fun acc support => acc ||| support) 0)
          &&& SUPPORT_GROUP_LIGHT := rfl

/-! ## C1 — turn-on targeting -/

/-- Every turn-on command forwards the recognised kwargs as its payload. -/
theorem turn_on_data_forwarded (g : LightGroup) (st : CompositeState)
    (hass : Env) (kwargs : Payload) :
    (async_turn_on g st hass kwargs).data = kwargs := by
  unfold async_turn_on
  cases h : (!st.is_on || (_turn_on_data kwargs).isEmpty) <;>
    simp [h] <;> exact turn_on_data_eq kwargs

/-- When the cached on flag is down or the payload is empty, turn-on targets
the main lights. -/
theorem turn_on_targets_of_off_or_empty (g : LightGroup) (st : CompositeState)
    (hass : Env) (kwargs : Payload)
    (hcond : st.is_on = false ∨ (_turn_on_data kwargs).isEmpty = true) :
    (async_turn_on g st hass kwargs).targets = g.main_lights := by
  unfold async_turn_on
  have hc : (!st.is_on || (_turn_on_data kwargs).isEmpty) = true := by
    rcases hcond with h | h
    · simp [h]
    · simp [h]
  simp [hc]

/-- When the cached on flag is up and the payload is non-empty, turn-on
targets the currently-on entities. -/
theorem turn_on_targets_of_on_nonempty (g : LightGroup) (st : CompositeState)
    (hass : Env) (kwargs : Payload) (h1 : st.is_on = true)
    (h2 : (_turn_on_data kwargs).isEmpty = false) :
    (async_turn_on g st hass kwargs).targets = _get_turned_on_entities g hass := by
  unfold async_turn_on
  have hc : (!st.is_on || (_turn_on_data kwargs).isEmpty) = false := by
    simp [h1, h2]
  simp [hc]

/-- C1: for every TurnOn invocation the payload is the recognised kwargs
forwarded as-is; when the cached `is_on` flag is false or the payload is empty
the single batched command targets exactly the main-light list; otherwise it
targets exactly the entities currently in the ON state across all members,
re-derived from the latest known states. -/
theorem turn_on_targeting (g : LightGroup) (st : CompositeState) (hass : Env)
    (kwargs : Payload) :
    (async_turn_on g st hass kwargs).data = kwargs
    ∧ (st.is_on = false ∨ (_turn_on_data kwargs).isEmpty = true →
        (async_turn_on g st hass kwargs).targets = g.main_lights)
    ∧ (st.is_on = true → (_turn_on_data kwargs).isEmpty = false →
        (async_turn_on g st hass kwargs).targets = _get_turned_on_entities g hass) :=
  ⟨turn_on_data_forwarded g st hass kwargs,
   turn_on_targets_of_off_or_empty g st hass kwargs,
   turn_on_targets_of_on_nonempty g st hass kwargs⟩

/-- Witness for C1: with the composite off, TurnOn targets the main light;
with the composite on (auxiliary light lit) and a non-empty payload, it
targets the currently-on entities. -/
theorem turn_on_targeting_witness :
    (async_turn_on cexGroup (async_update cexGroup cexOffEnv) cexOffEnv cexPayload).targets
      = ["a"]
    ∧ (async_turn_on cexGroup (async_update cexGroup cexEnv) cexEnv cexPayload).targets
      = ["b"] := by
  constructor
  · exact (turn_on_targeting cexGroup (async_update cexGroup cexOffEnv) cexOffEnv
      cexPayload).2.1 (Or.inl (by decide))
  · exact ((turn_on_targeting cexGroup (async_update cexGroup cexEnv) cexEnv
      cexPayload).2.2 (by decide) (by decide)).trans (by decide)

/-! ## C4 — toggle delegation -/

/-- C4: Toggle dispatches TurnOff with the same payload exactly when the
cached `main_lights_on` flag is true, and TurnOn with the same payload
otherwise; the On/Off decision equals the flag and is therefore independent of
the environment, the payload, and every other cached field. -/
theorem toggle_delegation (g : LightGroup) (st : CompositeState) (hass : Env)
    (kwargs : Payload) :
    async_toggle g st hass kwargs
      = (if st.main_lights_on then Dispatched.off (async_turn_off g kwargs)
         else Dispatched.on (async_turn_on g st hass kwargs))
    ∧ (async_toggle g st hass kwargs).isOff = st.main_lights_on := by
  refine ⟨rfl, ?_⟩
  unfold async_toggle
  cases st.main_lights_on with
  | false => rfl
  | true => rfl

/-! ## C5 — turn-off targeting and payload filtering -/

/-- C5: every TurnOff command targets exactly the stored concatenation of the
main and auxiliary light lists, regardless of payload and member states, and
the forwarded payload carries at most the transition key — every other key is
dropped. -/
theorem turn_off_targets_all (g : LightGroup) (kwargs : Payload) :
    (async_turn_off g kwargs).targets = g.main_lights ++ g.aux_lights
    ∧ (async_turn_off g kwargs).data.transition = kwargs.transition
    ∧ (async_turn_off g kwargs).data.brightness = none
    ∧ (async_turn_off g kwargs).data.hs_color = none
    ∧ (async_turn_off g kwargs).data.color_temp = none
    ∧ (async_turn_off g kwargs).data.white_value = none
    ∧ (async_turn_off g kwargs).data.effect = none
    ∧ (async_turn_off g kwargs).data.flash = none :=
  ⟨rfl, rfl, rfl, rfl, rfl, rfl, rfl, rfl⟩

/-! ## C2 — toggle with all primaries off -/

/-- Counterexample to C2: with main light `a` off and auxiliary light `b` on,
`main_lights_on` is false, so Toggle with a non-empty payload dispatches
TurnOn — but since the cached `is_on` flag is true and the payload is
non-empty, the turn-on command targets only the currently-on entity `b`: the
primary member `a` is not in the target set, so toggling does not turn the
primaries on. -/
theorem toggle_secondary_on_counterexample :
    (async_update cexGroup cexEnv).main_lights_on = false
    ∧ (async_update cexGroup cexEnv).is_on = true
    ∧ async_toggle cexGroup (async_update cexGroup cexEnv) cexEnv cexPayload
        = Dispatched.on
            (async_turn_on cexGroup (async_update cexGroup cexEnv) cexEnv cexPayload)
    ∧ (async_turn_on cexGroup (async_update cexGroup cexEnv) cexEnv cexPayload).targets
        = ["b"]
    ∧ "a" ∈ cexGroup.main_lights
    ∧ "a" ∉ (async_turn_on cexGroup (async_update cexGroup cexEnv) cexEnv
        cexPayload).targets := by
  decide

/-- C2 as amended: when the cached `main_lights_on` flag is false, Toggle
delegates to TurnOn with the same payload; the dispatched turn-on command
targets the primary member list exactly when the cached `is_on` flag is also
false or the payload is empty — when the composite is on (some secondary lit)
and the payload is non-empty it instead targets only the currently-on members,
which need not include any primary. -/
theorem toggle_primaries_off_turns_on (g : LightGroup) (st : CompositeState)
    (hass : Env) (kwargs : Payload) (h : st.main_lights_on = false) :
    async_toggle g st hass kwargs = Dispatched.on (async_turn_on g st hass kwargs)
    ∧ (st.is_on = false ∨ (_turn_on_data kwargs).isEmpty = true →
        (async_turn_on g st hass kwargs).targets = g.main_lights) := by
  constructor
  · unfold async_toggle
    rw [h]
    simp
  · exact turn_on_targets_of_off_or_empty g st hass kwargs

/-- Witness for the amended C2: with every member off, Toggle with a non-empty
payload dispatches a TurnOn that targets the main-light list. -/
theorem toggle_primaries_off_turns_on_witness :
    async_toggle cexGroup (async_update cexGroup cexOffEnv) cexOffEnv cexPayload
      = Dispatched.on
          (async_turn_on cexGroup (async_update cexGroup cexOffEnv) cexOffEnv cexPayload)
    ∧ (async_turn_on cexGroup (async_update cexGroup cexOffEnv) cexOffEnv
        cexPayload).targets = ["a"] := by
  have h := toggle_primaries_off_turns_on cexGroup
    (async_update cexGroup cexOffEnv) cexOffEnv cexPayload (by decide)
  exact ⟨h.1, (h.2 (Or.inl (by decide))).trans (by decide)⟩

/-! ## C3 — supported features stay inside the capability mask -/

/-- C3: after every recompute the composite's `supported_features` is the
bitwise OR of all reported member masks ANDed with the fixed capability mask
`SUPPORT_GROUP_LIGHT`, hence always a bitwise subset of that mask — for every
membership and every combination of member-reported masks, including masks
with bits outside it. -/
theorem supported_features_masked (g : LightGroup) (hass : Env) :
    (async_update g hass).supported_features
      = ((featureValues g hass).foldl (fun acc support => acc ||| support) 0)
          &&& SUPPORT_GROUP_LIGHT
    ∧ (async_update g hass).supported_features &&& SUPPORT_GROUP_LIGHT
      = (async_update g hass).supported_features := by
  refine ⟨rfl, ?_⟩
  rw [update_supported_features_def, Nat.land_assoc]
  exact congrArg (fun m => _ &&& m)
    (Nat.eq_of_testBit_eq fun i => by simp [Nat.testBit_land])

/-! ## C6 — numeric attribute reduction -/

/-- Folding `min` never exceeds the initial accumulator. -/
theorem foldl_min_le_init (l : List Int) : ∀ a : Int, l.foldl min a ≤ a := by
  induction l with
  | nil => intro a; simp
  | cons b t ih =>
    intro a
    rw [List.foldl_cons]
    exact le_trans (ih (min a b)) (min_le_left a b)

/-- Folding `min` never exceeds any list element. -/
theorem foldl_min_le_mem (l : List Int) : ∀ a x : Int, x ∈ l → l.foldl min a ≤ x := by
  induction l with
  | nil => intro a x hx; cases hx
  | cons b t ih =>
    intro a x hx
    rw [List.foldl_cons]
    rcases List.mem_cons.mp hx with h | h
    · subst h
      exact le_trans (foldl_min_le_init t (min a x)) (min_le_right a x)
    · exact ih (min a b) x h

/-- Folding `min` lands on the accumulator or on a list element. -/
theorem foldl_min_mem (l : List Int) :
    ∀ a : Int, l.foldl min a = a ∨ l.foldl min a ∈ l := by
  induction l with
  | nil => intro a; exact Or.inl rfl
  | cons b t ih =>
    intro a
    rw [List.foldl_cons]
    rcases ih (min a b) with h | h
    · rcases min_choice a b with hm | hm
      · exact Or.inl (h.trans hm)
      · exact Or.inr (by rw [h, hm]; exact List.mem_cons_self b t)
    · exact Or.inr (List.mem_cons_of_mem b h)

/-- Folding `max` is at least the initial accumulator. -/
theorem foldl_max_ge_init (l : List Int) : ∀ a : Int, a ≤ l.foldl max a := by
  induction l with
  | nil => intro a; simp
  | cons b t ih =>
    intro a
    rw [List.foldl_cons]
    exact le_trans (le_max_left a b) (ih (max a b))

/-- Folding `max` is at least any list element. -/
theorem foldl_max_ge_mem (l : List Int) : ∀ a x : Int, x ∈ l → x ≤ l.foldl max a := by
  induction l with
  | nil => intro a x hx; cases hx
  | cons b t ih =>
    intro a x hx
    rw [List.foldl_cons]
    rcases List.mem_cons.mp hx with h | h
    · subst h
      exact le_trans (le_max_right a x) (foldl_max_ge_init t (max a x))
    · exact ih (max a b) x h

/-- Folding `max` lands on the accumulator or on a list element. -/
theorem foldl_max_mem (l : List Int) :
    ∀ a : Int, l.foldl max a = a ∨ l.foldl max a ∈ l := by
  induction l with
  | nil => intro a; exact Or.inl rfl
  | cons b t ih =>
    intro a
    rw [List.foldl_cons]
    rcases ih (max a b) with h | h
    · rcases max_choice a b with hm | hm
      · exact Or.inl (h.trans hm)
      · exact Or.inr (by rw [h, hm]; exact List.mem_cons_self b t)
    · exact Or.inr (List.mem_cons_of_mem b h)

/-- Reducer `_min_reduce` on a non-empty list is a member and a lower bound. -/
theorem min_reduce_spec (a : Int) (t : List Int) :
    _min_reduce (a :: t) ∈ a :: t ∧ ∀ x ∈ a :: t, _min_reduce (a :: t) ≤ x := by
  constructor
  · show t.foldl min a ∈ a :: t
    rcases foldl_min_mem t a with h | h
    · rw [h]; exact List.mem_cons_self a t
    · exact List.mem_cons_of_mem a h
  · intro x hx
    show t.foldl min a ≤ x
    rcases List.mem_cons.mp hx with h | h
    · exact h ▸ foldl_min_le_init t a
    · exact foldl_min_le_mem t a x h

/-- Reducer `_max_reduce` on a non-empty list is a member and an upper bound. -/
theorem max_reduce_spec (a : Int) (t : List Int) :
    _max_reduce (a :: t) ∈ a :: t ∧ ∀ x ∈ a :: t, x ≤ _max_reduce (a :: t) := by
  constructor
  · show t.foldl max a ∈ a :: t
    rcases foldl_max_mem t a with h | h
    · rw [h]; exact List.mem_cons_self a t
    · exact List.mem_cons_of_mem a h
  · intro x hx
    show x ≤ t.foldl max a
    rcases List.mem_cons.mp hx with h | h
    · exact h ▸ foldl_max_ge_init t a
    · exact foldl_max_ge_mem t a x h

/-- The source's integer reduction agrees with the spec-side shape. -/
theorem reduce_eq_spec_numeric (states : List State) (get : State → Option Int) :
    _reduce_attribute states get none _mean_int
      = specNumericReduction (_find_state_attributes states get) := by
  cases h : _find_state_attributes states get with
  | nil => exact reduce_attribute_of_nil _ _ _ _ h
  | cons a t =>
    cases t with
    | nil => exact reduce_attribute_of_one _ _ _ _ a h
    | cons b t2 =>
      have h2 : 2 ≤ (_find_state_attributes states get).length := by rw [h]; simp
      have e := reduce_attribute_of_two_le states get none _mean_int h2
      rw [h] at e
      exact e

/-- The source's pair reduction agrees with the spec-side shape. -/
theorem reduce_eq_spec_pair (states : List State)
    (get : State → Option (ℚ × ℚ)) :
    _reduce_attribute states get none _mean_tuple
      = specPairReduction (_find_state_attributes states get) := by
  cases h : _find_state_attributes states get with
  | nil => exact reduce_attribute_of_nil _ _ _ _ h
  | cons a t =>
    cases t with
    | nil => exact reduce_attribute_of_one _ _ _ _ a h
    | cons b t2 =>
      have h2 : 2 ≤ (_find_state_attributes states get).length := by rw [h]; simp
      have e := reduce_attribute_of_two_le states get none _mean_tuple h2
      rw [h] at e
      exact e

/-- The source's mireds reduction agrees with the spec-side shape. -/
theorem reduce_eq_spec_mireds (states : List State) (get : State → Option Int)
    (dflt : Int) (rdc : List Int → Int) :
    _reduce_attribute states get (some dflt) rdc
      = specMiredsReduction dflt rdc (_find_state_attributes states get) := by
  cases h : _find_state_attributes states get with
  | nil => exact reduce_attribute_of_nil _ _ _ _ h
  | cons a t =>
    cases t with
    | nil => exact reduce_attribute_of_one _ _ _ _ a h
    | cons b t2 =>
      have h2 : 2 ≤ (_find_state_attributes states get).length := by rw [h]; simp
      have e := reduce_attribute_of_two_le states get (some dflt) rdc h2
      rw [h] at e
      exact e

/-- A defined mireds minimum is the default on no values, else the minimum of
the gathered values. -/
theorem reduce_min_characterization (states : List State)
    (get : State → Option Int) (dflt m : Int)
    (hm : _reduce_attribute states get (some dflt) _min_reduce = some m) :
    (_find_state_attributes states get = [] ∧ m = dflt)
    ∨ (m ∈ _find_state_attributes states get
        ∧ ∀ x ∈ _find_state_attributes states get, m ≤ x) := by
  cases hl : _find_state_attributes states get with
  | nil =>
    rw [reduce_attribute_of_nil _ _ _ _ hl] at hm
    injection hm with h
    exact Or.inl ⟨rfl, h.symm⟩
  | cons a t =>
    cases t with
    | nil =>
      rw [reduce_attribute_of_one _ _ _ _ a hl] at hm
      injection hm with h
      subst h
      refine Or.inr ⟨List.mem_cons_self a [], ?_⟩
      intro x hx
      rcases List.mem_cons.mp hx with hx | hx
      · exact le_of_eq hx.symm
      · cases hx
    | cons b t2 =>
      have h2 : 2 ≤ (_find_state_attributes states get).length := by rw [hl]; simp
      rw [reduce_attribute_of_two_le _ _ _ _ h2, hl] at hm
      injection hm with h
      subst h
      exact Or.inr ⟨(min_reduce_spec a (b :: t2)).1, (min_reduce_spec a (b :: t2)).2⟩

/-- A defined mireds maximum is the default on no values, else the maximum of
the gathered values. -/
theorem reduce_max_characterization (states : List State)
    (get : State → Option Int) (dflt m : Int)
    (hm : _reduce_attribute states get (some dflt) _max_reduce = some m) :
    (_find_state_attributes states get = [] ∧ m = dflt)
    ∨ (m ∈ _find_state_attributes states get
        ∧ ∀ x ∈ _find_state_attributes states get, x ≤ m) := by
  cases hl : _find_state_attributes states get with
  | nil =>
    rw [reduce_attribute_of_nil _ _ _ _ hl] at hm
    injection hm with h
    exact Or.inl ⟨rfl, h.symm⟩
  | cons a t =>
    cases t with
    | nil =>
      rw [reduce_attribute_of_one _ _ _ _ a hl] at hm
      injection hm with h
      subst h
      refine Or.inr ⟨List.mem_cons_self a [], ?_⟩
      intro x hx
      rcases List.mem_cons.mp hx with hx | hx
      · exact le_of_eq hx
      · cases hx
    | cons b t2 =>
      have h2 : 2 ≤ (_find_state_attributes states get).length := by rw [hl]; simp
      rw [reduce_attribute_of_two_le _ _ _ _ h2, hl] at hm
      injection hm with h
      subst h
      exact Or.inr ⟨(max_reduce_spec a (b :: t2)).1, (max_reduce_spec a (b :: t2)).2⟩

/-- C6: each numeric attribute reduced over the ON members that define it is
the default none on zero values, the value itself on exactly one value, and
the arithmetic mean truncated to an integer on several (`hs_color` the
component-wise mean); `min_mireds` and `max_mireds` are gathered over all
present members with defaults 154 and 500, and whenever defined they are the
default (no value gathered) or exactly the minimum resp. maximum of the
gathered values. -/
theorem numeric_attribute_reduction (g : LightGroup) (hass : Env) :
    (async_update g hass).brightness = specNumericReduction (brightnessValues g hass)
    ∧ (async_update g hass).color_temp = specNumericReduction (colorTempValues g hass)
    ∧ (async_update g hass).white_value = specNumericReduction (whiteValueValues g hass)
    ∧ (async_update g hass).hs_color = specPairReduction (hsColorValues g hass)
    ∧ (async_update g hass).min_mireds
        = specMiredsReduction 154 _min_reduce (minMiredsValues g hass)
    ∧ (async_update g hass).max_mireds
        = specMiredsReduction 500 _max_reduce (maxMiredsValues g hass)
    ∧ (∀ m, (async_update g hass).min_mireds = some m →
        (minMiredsValues g hass = [] ∧ m = 154)
        ∨ (m ∈ minMiredsValues g hass ∧ ∀ x ∈ minMiredsValues g hass, m ≤ x))
    ∧ (∀ m, (async_update g hass).max_mireds = some m →
        (maxMiredsValues g hass = [] ∧ m = 500)
        ∨ (m ∈ maxMiredsValues g hass ∧ ∀ x ∈ maxMiredsValues g hass, x ≤ m)) := by
  refine ⟨?_, ?_, ?_, ?_, ?_, ?_, ?_, ?_⟩
  · rw [update_brightness_def]
    exact reduce_eq_spec_numeric (onStates g hass) (fun s => s.brightness)
  · rw [update_color_temp_def]
    exact reduce_eq_spec_numeric (onStates g hass) (fun s => s.color_temp)
  · rw [update_white_value_def]
    exact reduce_eq_spec_numeric (onStates g hass) (fun s => s.white_value)
  · rw [update_hs_color_def]
    exact reduce_eq_spec_pair (onStates g hass) (fun s => s.hs_color)
  · rw [update_min_mireds_def]
    exact reduce_eq_spec_mireds (presentStates g hass) (fun s => s.min_mireds) 154 _min_reduce
  · rw [update_max_mireds_def]
    exact reduce_eq_spec_mireds (presentStates g hass) (fun s => s.max_mireds) 500 _max_reduce
  · intro m hm
    rw [update_min_mireds_def] at hm
    exact reduce_min_characterization (presentStates g hass)
      (fun s => s.min_mireds) 154 m hm
  · intro m hm
    rw [update_max_mireds_def] at hm
    exact reduce_max_characterization (presentStates g hass)
      (fun s => s.max_mireds) 500 m hm

/-- Witness for C6: two ON members with brightness 100 and 101 reduce to 100
(truncated mean 100.5), color_temp 300/301 to 300, white_value 10/21 to 15; a
single member's brightness and hs_color come back unchanged; with no member at
all brightness is none; the mireds bounds 200/180 and 400/450 reduce to the
minimum 180 and the maximum 450 of the gathered values. -/
theorem numeric_attribute_reduction_witness :
    (async_update cexGroup w6EnvBoth).brightness = some 100
    ∧ (async_update cexGroup w6EnvBoth).color_temp = some 300
    ∧ (async_update cexGroup w6EnvBoth).white_value = some 15
    ∧ (async_update cexGroup w6EnvA).hs_color = some (10, 20)
    ∧ (async_update cexGroup w6EnvA).brightness = some 100
    ∧ (async_update cexGroup (fun _ => none)).brightness = none
    ∧ ((180 : Int) ∈ minMiredsValues cexGroup w6EnvBoth
        ∧ ∀ x ∈ minMiredsValues cexGroup w6EnvBoth, (180 : Int) ≤ x)
    ∧ ((450 : Int) ∈ maxMiredsValues cexGroup w6EnvBoth
        ∧ ∀ x ∈ maxMiredsValues cexGroup w6EnvBoth, x ≤ (450 : Int)) := by
  refine ⟨?_, ?_, ?_, ?_, ?_, ?_, ?_, ?_⟩
  · exact (numeric_attribute_reduction cexGroup w6EnvBoth).1.trans (by decide)
  · exact (numeric_attribute_reduction cexGroup w6EnvBoth).2.1.trans (by decide)
  · exact (numeric_attribute_reduction cexGroup w6EnvBoth).2.2.1.trans (by decide)
  · exact (numeric_attribute_reduction cexGroup w6EnvA).2.2.2.1.trans (by decide)
  · exact (numeric_attribute_reduction cexGroup w6EnvA).1.trans (by decide)
  · exact (numeric_attribute_reduction cexGroup (fun _ => none)).1.trans (by decide)
  · exact ((numeric_attribute_reduction cexGroup w6EnvBoth).2.2.2.2.2.2.1 180
      (by decide)).resolve_left (by decide)
  · exact ((numeric_attribute_reduction cexGroup w6EnvBoth).2.2.2.2.2.2.2 450
      (by decide)).resolve_left (by decide)

/-! ## C7 — most-common effect -/

/-- Lemma: `find?` returns the earliest satisfying element: its index is minimal
among satisfying elements. -/
theorem find?_indexOf_le {α : Type} [DecidableEq α] (p : α → Bool) :
    ∀ (l : List α) (a : α), l.find? p = some a →
      ∀ b ∈ l, p b = true → l.indexOf a ≤ l.indexOf b := by
  intro l
  induction l with
  | nil => intro a h; simp at h
  | cons x t ih =>
    intro a h b hb hpb
    cases hx : p x with
    | true =>
      rw [List.find?_cons_of_pos t hx] at h
      injection h with h
      subst h
      rw [List.indexOf_cons_self]
      exact Nat.zero_le _
    | false =>
      rw [List.find?_cons_of_neg t (by simp [hx])] at h
      have hpa : p a = true := List.find?_some h
      have hax : x ≠ a := fun e => by rw [e, hpa] at hx; cases hx
      rcases List.mem_cons.mp hb with hbx | hbt
      · subst hbx
        rw [hx] at hpb
        cases hpb
      · have hxb : x ≠ b := fun e => by rw [e, hpb] at hx; cases hx
        rw [List.indexOf_cons_ne t hax, List.indexOf_cons_ne t hxb]
        exact Nat.succ_le_succ (ih a h b hbt hpb)

/-- A non-empty gathered effect list has a most-common element. -/
theorem most_common_isSome (l : List String) (hl : l ≠ []) :
    ∃ e, _most_common l = some e := by
  cases ha : l.argmax (fun c => l.count c) with
  | none => exact absurd (List.argmax_eq_none.mp ha) hl
  | some m =>
    have hm : m ∈ l := List.argmax_mem ha
    have hpred : l.all (fun x => decide (l.count x ≤ l.count m)) = true := by
      rw [List.all_eq_true]
      intro x hx
      exact decide_eq_true (List.le_of_mem_argmax hx ha)
    have hsome : (l.find? (fun c => l.all (fun x => decide (l.count x ≤ l.count c)))).isSome := by
      rw [List.find?_isSome]
      exact ⟨m, hm, hpred⟩
    rcases Option.isSome_iff_exists.mp hsome with ⟨e, he⟩
    exact ⟨e, he⟩

/-- C7: the reduced effect is none exactly when no ON member reports an
effect; otherwise it is a reported effect of maximal occurrence count among
the gathered effects, and on a count tie no equally-frequent effect occurs
earlier in gather order; in particular the gathered effects A, B, A of
`w7Env` reduce to A. -/
theorem effect_most_common (g : LightGroup) (hass : Env) :
    (effectValues g hass = [] → (async_update g hass).effect = none)
    ∧ (effectValues g hass ≠ [] → ∃ e, (async_update g hass).effect = some e)
    ∧ (∀ e, (async_update g hass).effect = some e →
        e ∈ effectValues g hass
        ∧ ∀ x ∈ effectValues g hass,
            (effectValues g hass).count x ≤ (effectValues g hass).count e
            ∧ ((effectValues g hass).count x = (effectValues g hass).count e →
                (effectValues g hass).indexOf e ≤ (effectValues g hass).indexOf x))
    ∧ (async_update w7Group w7Env).effect = some "A" := by
  refine ⟨?_, ?_, ?_, by decide⟩
  · intro h
    rw [update_effect_def, h]
    rfl
  · intro h
    rw [update_effect_def]
    exact most_common_isSome _ h
  · intro e he
    rw [update_effect_def] at he
    unfold _most_common at he
    have hpe := List.find?_some he
    have hall : ∀ y ∈ effectValues g hass,
        (effectValues g hass).count y ≤ (effectValues g hass).count e :=
      fun y hy => of_decide_eq_true (List.all_eq_true.mp hpe y hy)
    have hmem : e ∈ effectValues g hass := List.mem_of_find?_eq_some he
    refine ⟨hmem, ?_⟩
    intro x hx
    refine ⟨hall x hx, ?_⟩
    intro hcnt
    have hpx : (effectValues g hass).all
        (fun y => decide ((effectValues g hass).count y
          ≤ (effectValues g hass).count x)) = true := by
      rw [List.all_eq_true]
      intro y hy
      have hy2 : (effectValues g hass).count y ≤ (effectValues g hass).count x := by
        rw [hcnt]
        exact hall y hy
      exact decide_eq_true hy2
    exact find?_indexOf_le _ (effectValues g hass) e he x hx hpx

/-- Witness for C7: with no member the effect is none; with the effects
A, B, A gathered, a most-common effect exists, A is gathered with maximal
count, and the tie-break inequality holds at A itself. -/
theorem effect_most_common_witness :
    (async_update cexGroup (fun _ => none)).effect = none
    ∧ (∃ e, (async_update w7Group w7Env).effect = some e)
    ∧ ("A" ∈ effectValues w7Group w7Env
        ∧ ∀ x ∈ effectValues w7Group w7Env,
            (effectValues w7Group w7Env).count x
              ≤ (effectValues w7Group w7Env).count "A")
    ∧ (effectValues w7Group w7Env).indexOf "A"
        ≤ (effectValues w7Group w7Env).indexOf "A" := by
  refine ⟨?_, ?_, ?_, ?_⟩
  · exact (effect_most_common cexGroup (fun _ => none)).1 (by decide)
  · exact (effect_most_common w7Group w7Env).2.1 (by decide)
  · have h := (effect_most_common w7Group w7Env).2.2.1 "A" (by decide)
    exact ⟨h.1, fun x hx => (h.2 x hx).1⟩
  · exact (((effect_most_common w7Group w7Env).2.2.1 "A" (by decide)).2 "A"
      (by decide)).2 (by decide)

/-! ## C8 — effect list union -/

/-- Membership in a left fold of finsets under union. -/
theorem mem_foldl_union (x : String) :
    ∀ (ls : List (Finset String)) (acc : Finset String),
      (x ∈ ls.foldl (fun a l => a ∪ l) acc ↔ x ∈ acc ∨ ∃ L ∈ ls, x ∈ L) := by
  intro ls
  induction ls with
  | nil => intro acc; simp
  | cons hd t ih =>
    intro acc
    rw [List.foldl_cons, ih (acc ∪ hd)]
    constructor
    · rintro (h | h)
      · rcases Finset.mem_union.mp h with h | h
        · exact Or.inl h
        · exact Or.inr ⟨hd, List.mem_cons_self hd t, h⟩
      · rcases h with ⟨L, hL, hxL⟩
        exact Or.inr ⟨L, List.mem_cons_of_mem hd hL, hxL⟩
    · rintro (h | ⟨L, hL, hxL⟩)
      · exact Or.inl (Finset.mem_union_left hd h)
      · rcases List.mem_cons.mp hL with h | h
        · subst h
          exact Or.inl (Finset.mem_union_right acc hxL)
        · exact Or.inr ⟨L, h, hxL⟩

/-- C8: the reduced effect list is absent exactly when no present member
reports one; otherwise it is the set union of all reported effect lists — an
element belongs to it iff some present member's effect list contains it — and
it round-trips: a single reported effect list re-appears unchanged. -/
theorem effect_list_union (g : LightGroup) (hass : Env) :
    (effectListValues g hass = [] → (async_update g hass).effect_list = none)
    ∧ (effectListValues g hass ≠ [] →
        (async_update g hass).effect_list
          = some (_union_effect_lists (effectListValues g hass)))
    ∧ (∀ u, (async_update g hass).effect_list = some u →
        ∀ x, x ∈ u ↔ ∃ L ∈ effectListValues g hass, x ∈ L)
    ∧ (∀ L, effectListValues g hass = [L] →
        (async_update g hass).effect_list = some L) := by
  refine ⟨?_, ?_, ?_, ?_⟩
  · intro h
    rw [update_effect_list_def, h]
    rfl
  · intro h
    have hb : (effectListValues g hass).isEmpty = false := by
      cases hl : effectListValues g hass with
      | nil => exact absurd hl h
      | cons a t => rfl
    rw [update_effect_list_def]
    simp [hb]
  · intro u hu x
    rw [update_effect_list_def] at hu
    cases hl : effectListValues g hass with
    | nil =>
      rw [hl] at hu
      simp at hu
    | cons a t =>
      rw [hl] at hu
      have h2 : some (_union_effect_lists (a :: t)) = some u := hu
      injection h2 with h2
      subst h2
      unfold _union_effect_lists
      rw [mem_foldl_union x (a :: t) ∅]
      simp
  · intro L hL
    rw [update_effect_list_def, hL]
    simp [_union_effect_lists]

/-- Witness for C8: with no member the effect list is absent; a single
member's effect list comes back unchanged; with two members the reduction is
the union of their lists and membership in it matches membership in some
reported list. -/
theorem effect_list_union_witness :
    (async_update cexGroup (fun _ => none)).effect_list = none
    ∧ (async_update cexGroup w6EnvA).effect_list = some { "colorloop", "reverse"}
    ∧ (async_update cexGroup w6EnvBoth).effect_list = some { "colorloop", "reverse"}
    ∧ ("reverse" ∈ ({ "colorloop", "reverse"} : Finset String)
        ↔ ∃ L ∈ effectListValues cexGroup w6EnvA, "reverse" ∈ L) := by
  refine ⟨?_, ?_, ?_, ?_⟩
  · exact (effect_list_union cexGroup (fun _ => none)).1 (by decide)
  · exact (effect_list_union cexGroup w6EnvA).2.2.2 { "colorloop", "reverse"}
      (by decide)
  · exact ((effect_list_union cexGroup w6EnvBoth).2.1 (by decide)).trans (by decide)
  · exact (effect_list_union cexGroup w6EnvA).2.2.1 { "colorloop", "reverse"}
      (by decide) "reverse"

/-! ## C9 — recompute is total, with no error path -/

/-- The `is_on` field of `async_update`, unfolded. -/
theorem update_is_on_def (g : LightGroup) (hass : Env) :
    (async_update g hass).is_on = decide (0 < (onStates g hass).length) := rfl

/-- The `main_lights_on` field of `async_update`, unfolded. -/
theorem update_main_lights_on_def (g : LightGroup) (hass : Env) :
    (async_update g hass).main_lights_on
      = g.main_lights.any (fun m => (_get_turned_on_entities g hass).contains m) := rfl

/-- The `available` field of `async_update`, unfolded. -/
theorem update_available_def (g : LightGroup) (hass : Env) :
    (async_update g hass).available
      = (presentStates g hass).any (fun s => s.state != STATE_UNAVAILABLE) := rfl

/-- With every member state absent, no state is gathered. -/
theorem states_of_absent (g : LightGroup) :
    _get_states_and_on_states g (fun _ => none) = ([], []) := by
  unfold _get_states_and_on_states
  simp

/-- With every member state absent, no entity is turned on. -/
theorem turned_on_of_absent (g : LightGroup) :
    _get_turned_on_entities g (fun _ => none) = [] := by
  unfold _get_turned_on_entities
  rw [states_of_absent]
  rfl

/-- With every member state absent, the present list is empty. -/
theorem present_of_absent (g : LightGroup) :
    presentStates g (fun _ => none) = [] := by
  unfold presentStates
  rw [states_of_absent]

/-- With every member state absent, the ON list is empty. -/
theorem on_of_absent (g : LightGroup) :
    onStates g (fun _ => none) = [] := by
  unfold onStates
  rw [states_of_absent]

/-- C9: recompute has no error path.  The reduction's result depends on the
reducer only through its values on lists of at least two gathered values —
the mean reducers' division is never reached with fewer — and the all-absent
snapshot set yields the valid default composite state (off, unavailable,
attributes absent, default mireds bounds, empty feature mask) instead of
failing. -/
theorem recompute_no_error_path {α : Type} (g : LightGroup) (states : List State)
    (get : State → Option α) (d : Option α) (r r2 : List α → α)
    (hrr : ∀ l, 2 ≤ l.length → r l = r2 l) :
    _reduce_attribute states get d r = _reduce_attribute states get d r2
    ∧ ((async_update g (fun _ => none)).is_on = false
       ∧ (async_update g (fun _ => none)).main_lights_on = false
       ∧ (async_update g (fun _ => none)).available = false
       ∧ (async_update g (fun _ => none)).brightness = none
       ∧ (async_update g (fun _ => none)).hs_color = none
       ∧ (async_update g (fun _ => none)).white_value = none
       ∧ (async_update g (fun _ => none)).color_temp = none
       ∧ (async_update g (fun _ => none)).min_mireds = some 154
       ∧ (async_update g (fun _ => none)).max_mireds = some 500
       ∧ (async_update g (fun _ => none)).effect_list = none
       ∧ (async_update g (fun _ => none)).effect = none
       ∧ (async_update g (fun _ => none)).supported_features = 0) := by
  constructor
  · cases h : _find_state_attributes states get with
    | nil =>
      rw [reduce_attribute_of_nil states get d r h,
        reduce_attribute_of_nil states get d r2 h]
    | cons a t =>
      cases t with
      | nil =>
        rw [reduce_attribute_of_one states get d r a h,
          reduce_attribute_of_one states get d r2 a h]
      | cons b t2 =>
        have h2 : 2 ≤ (_find_state_attributes states get).length := by rw [h]; simp
        rw [reduce_attribute_of_two_le states get d r h2,
          reduce_attribute_of_two_le states get d r2 h2, h,
          hrr (a :: b :: t2) (by simp)]
  · refine ⟨?_, ?_, ?_, ?_, ?_, ?_, ?_, ?_, ?_, ?_, ?_, ?_⟩
    · rw [update_is_on_def, on_of_absent]
      rfl
    · rw [update_main_lights_on_def, turned_on_of_absent]
      simp [List.contains]
    · rw [update_available_def, present_of_absent]
      rfl
    · rw [update_brightness_def, on_of_absent]
      rfl
    · rw [update_hs_color_def, on_of_absent]
      rfl
    · rw [update_white_value_def, on_of_absent]
      rfl
    · rw [update_color_temp_def, on_of_absent]
      rfl
    · rw [update_min_mireds_def, present_of_absent]
      rfl
    · rw [update_max_mireds_def, present_of_absent]
      rfl
    · have he : effectListValues g (fun _ => none) = [] := by
        unfold effectListValues _find_state_attributes
        rw [present_of_absent]
        rfl
      rw [update_effect_list_def, he]
      rfl
    · have he : effectValues g (fun _ => none) = [] := by
        unfold effectValues _find_state_attributes
        rw [on_of_absent]
        rfl
      rw [update_effect_def, he]
      rfl
    · have hf : featureValues g (fun _ => none) = [] := by
        unfold featureValues _find_state_attributes
        rw [present_of_absent]
        rfl
      rw [update_supported_features_def, hf]
      decide

/-- Witness for C9: at two concrete gathered brightness values, swapping the
mean reducer for one that differs only on lists shorter than two leaves the
reduction unchanged; and the all-absent composite reports off. -/
theorem recompute_no_error_path_witness :
    _reduce_attribute [w6A, w6B] (fun s => s.brightness) none _mean_int
      = _reduce_attribute [w6A, w6B] (fun s => s.brightness) none
          (fun l => if 2 ≤ l.length then _mean_int l else 999)
    ∧ (async_update cexGroup (fun _ => none)).is_on = false := by
  have h := recompute_no_error_path cexGroup [w6A, w6B] (fun s => s.brightness)
    none _mean_int (fun l => if 2 ≤ l.length then _mean_int l else 999)
    (fun l hl => (if_pos hl).symm)
  exact ⟨h.1, h.2.1⟩

/-! ## C10 — a member listed as both main and auxiliary counts twice -/

/-- Each occurrence of `a` in `l` contributes an occurrence of `b` to
`l.filterMap f` when `f a = some b`. -/
theorem count_le_filterMap_count {α β : Type} [DecidableEq α] [DecidableEq β]
    (f : α → Option β) (a : α) (b : β) (hf : f a = some b) :
    ∀ l : List α, l.count a ≤ (l.filterMap f).count b := by
  intro l
  induction l with
  | nil => simp
  | cons x t ih =>
    by_cases hxa : x = a
    · subst hxa
      rw [List.filterMap_cons_some hf, List.count_cons_self,
        List.count_cons_self]
      exact Nat.succ_le_succ ih
    · have hcnt : (x :: t).count a = t.count a :=
        List.count_cons_of_ne (fun e => hxa e.symm) t
      rw [hcnt]
      cases hfx : f x with
      | none =>
        rw [List.filterMap_cons_none hfx]
        exact ih
      | some c =>
        rw [List.filterMap_cons_some hfx, List.count_cons]
        exact le_trans ih (Nat.le_add_right _ _)

/-- Filtering by a predicate the element satisfies keeps its count. -/
theorem count_filter_of_pos {α : Type} [DecidableEq α] (p : α → Bool) (a : α)
    (ha : p a = true) (l : List α) : (l.filter p).count a = l.count a :=
  List.count_filter ha

/-- The gathered member states are the membership list filtered through the
state machine. -/
theorem presentStates_eq_filterMap (g : LightGroup) (hass : Env) :
    presentStates g hass = (entity_ids g).filterMap hass := by
  show List.filterMap id ((entity_ids g).map hass) = List.filterMap hass (entity_ids g)
  rw [List.filterMap_map]
  rfl

/-- C10: a MemberId on both the main and the auxiliary list occurs in the
stored union once per listing (so at least twice), appears that often in every
TurnOff target list, its snapshot is gathered at least twice on recompute, it
is counted at least twice among the ON states when on, and its brightness
value contributes at least twice to the gathered brightness list — concretely,
`dupGroup` averages brightness 100 (counted twice) and 130 to 110. -/
theorem duplicate_member_double_weight (g : LightGroup) (hass : Env)
    (id : String) (s : State) (b : Int) (kwargs : Payload)
    (h1 : id ∈ g.main_lights) (h2 : id ∈ g.aux_lights) :
    (entity_ids g).count id = g.main_lights.count id + g.aux_lights.count id
    ∧ 2 ≤ (entity_ids g).count id
    ∧ 2 ≤ ((async_turn_off g kwargs).targets.count id)
    ∧ (hass id = some s →
        2 ≤ (presentStates g hass).count s
        ∧ (s.state = STATE_ON → 2 ≤ (onStates g hass).count s
            ∧ (s.brightness = some b → 2 ≤ (brightnessValues g hass).count b)))
    ∧ (async_update dupGroup dupEnv).brightness = some 110 := by
  have hcnt2 : 2 ≤ (entity_ids g).count id := by
    rw [entity_ids, List.count_append]
    have hm : 0 < g.main_lights.count id := List.count_pos_iff.mpr h1
    have ha : 0 < g.aux_lights.count id := List.count_pos_iff.mpr h2
    omega
  refine ⟨List.count_append id g.main_lights g.aux_lights, hcnt2, hcnt2, ?_, by decide⟩
  intro hids
  have hpres : 2 ≤ (presentStates g hass).count s := by
    rw [presentStates_eq_filterMap]
    exact le_trans hcnt2 (count_le_filterMap_count hass id s hids (entity_ids g))
  refine ⟨hpres, ?_⟩
  intro hon
  have honc : 2 ≤ (onStates g hass).count s := by
    have : onStates g hass = (presentStates g hass).filter (fun t => t.state == STATE_ON) := rfl
    rw [this, count_filter_of_pos _ s (by rw [hon]; exact beq_self_eq_true STATE_ON)]
    exact hpres
  refine ⟨honc, ?_⟩
  intro hb
  unfold brightnessValues _find_state_attributes
  exact le_trans honc
    (count_le_filterMap_count (fun t => t.brightness) s b hb (onStates g hass))

/-- Witness for C10: in `dupGroup`, member `a` is listed once as main and once
as auxiliary: it occurs exactly twice in the stored union and in the TurnOff
targets, its snapshot and brightness are gathered at least twice. -/
theorem duplicate_member_double_weight_witness :
    (entity_ids dupGroup).count "a"
        = dupGroup.main_lights.count "a" + dupGroup.aux_lights.count "a"
    ∧ 2 ≤ (entity_ids dupGroup).count "a"
    ∧ 2 ≤ ((async_turn_off dupGroup Payload.empty).targets.count "a")
    ∧ 2 ≤ (presentStates dupGroup dupEnv).count dupStateA
    ∧ 2 ≤ (onStates dupGroup dupEnv).count dupStateA
    ∧ 2 ≤ (brightnessValues dupGroup dupEnv).count 100 := by
  have h := duplicate_member_double_weight dupGroup dupEnv "a" dupStateA 100
    Payload.empty (by decide) (by decide)
  have h4 := h.2.2.2.1 (by decide)
  have h5 := h4.2 (by decide)
  exact ⟨h.1, h.2.1, h.2.2.1, h4.1, h5.1, h5.2 (by decide)⟩

end ALG
